import Mathlib

/-!
Verification of `src/assistant/probes/controller.py` (AIOps-Assistant).

The module implements a probe controller: a broker between an LLM agent and
a fixed set of probe providers.  Each probe is a dictionary with a `name`,
a `list_function` hook returning its callable function definitions, and a
`call_function` hook executing a named function with arguments and returning
a string.  The controller keeps two class-level lists, `__probe_index`
(the registry of probes) and `__function_index` (the flattened index of all
function definitions tagged with their owning probe), and offers
`function_list` and `function_call`.

The embedding below translates that module.  Python dictionaries become
structures; the two class-level lists become an explicit `ClassState`
record threaded through the operations; raised exceptions become an
`Except` value; the observable side effects of `function_call` (which probe
hooks it invokes, and what the `except` handlers print to the console) are
recorded in explicit event lists.
-/

namespace AIOps

/-- The argument mapping (`function_args : dict`) passed through the
controller.  The controller never inspects it, so an association list of
strings is a faithful opaque stand-in. -/
abbrev Args := List (String × String)

/-- A function definition as advertised by a probe: a dictionary holding at
least the key `name` (the only key the controller reads, at
`func['function']['name']`); the remaining keys (argument schema,
description, ...) are opaque to the controller and collapsed into
`schema`. -/
structure FuncDef where
  name : String
  schema : String
deriving DecidableEq, Repr

/-- The Python exceptions that can cross `function_call`.
`FunctionNotFoundError` and `ProbeNotFoundError` are the two classes the
module defines; `other` stands for any other exception a probe hook might
raise. -/
inductive PyExc where
  | FunctionNotFoundError (name : String)
  | ProbeNotFoundError (name : String)
  | other (msg : String)
deriving DecidableEq, Repr

/-- The `msg` attribute each exception class sets in its `__init__`
(`self.msg = f'Probe callable function not found: \x7bmsg\x7d'` and
`self.msg = f'Probe not found: \x7bmsg\x7d'`).  For a foreign exception we
leave the message as is. -/
def PyExc.msg : PyExc → String
  | .FunctionNotFoundError n => "Probe callable function not found: " ++ n
  | .ProbeNotFoundError n => "Probe not found: " ++ n
  | .other m => m

/-- What `print(err)` writes to the console: `str(err)`.  Neither exception
class calls `Exception.__init__`, but in CPython `BaseException.__new__`
already stores the constructor arguments in `err.args`, and
`BaseException.__str__` of a one-argument exception is `str(args[0])`.
Hence `str(err)` is the bare offending name; the formatted `msg` attribute
set in `__init__` is never consulted by `print`. -/
def PyExc.strForm : PyExc → String
  | .FunctionNotFoundError n => n
  | .ProbeNotFoundError n => n
  | .other m => m

/-- One entry of the class-level `__probe_index` list: the probe name and
its two capability hooks.  `list_function` takes a unit argument, mirroring
that the source calls the hook (`probe['list_function']()`) each time it
needs the list; `call_function` may raise, hence the `Except` result. -/
structure Probe where
  name : String
  list_function : Unit → List FuncDef
  call_function : String → Args → Except PyExc String

/-- One entry of the class-level `__function_index` list:
`{'probe': probe['name'], 'function': probe_func}`. -/
structure IndexEntry where
  probe : String
  function : FuncDef
deriving DecidableEq, Repr

/-- The class-level state of `ProbeController`: the registry
`__probe_index` and the function index `__function_index`.  In the source
both are class attributes, so they are shared by every instance; the
initial value of `__function_index` is the empty list literal of the class
body. -/
structure ClassState where
  probe_index : List Probe
  function_index : List IndexEntry

namespace ProbeController

/-- The index entries one probe contributes in `__init__`:
`{'probe': probe['name'], 'function': probe_func}` for every
`probe_func` in `probe['list_function']()`, in listing order. -/
def probeEntries (p : Probe) : List IndexEntry :=
  (p.list_function ()).map fun f => { probe := p.name, function := f }

/-- `__init__`: for every probe in `__probe_index`, append an entry for
every function it lists onto `self.__function_index`.  Since
`__function_index` is a class attribute and `append` mutates it in place,
the entries are appended to whatever the class-level list already holds:
a second construction appends a second copy. -/
def init (s : ClassState) : ClassState :=
  { s with
    function_index := s.probe_index.foldl (fun acc p => acc ++ probeEntries p) s.function_index }

/-- `__get_probe`: first entry of `__probe_index` whose `name` matches,
else raise `ProbeNotFoundError(name)`. -/
def get_probe (s : ClassState) (name : String) : Except PyExc Probe :=
  match s.probe_index.find? (fun p => p.name == name) with
  | some p => .ok p
  | none => .error (.ProbeNotFoundError name)

/-- `__get_function`: first entry of `__function_index` whose
`function['name']` matches, else raise `FunctionNotFoundError(name)`. -/
def get_function (s : ClassState) (name : String) : Except PyExc IndexEntry :=
  match s.function_index.find? (fun e => e.function.name == name) with
  | some e => .ok e
  | none => .error (.FunctionNotFoundError name)

/-- `function_list`: start from `[]` and concatenate
`probe['list_function']()` for every probe of `__probe_index`, in order. -/
def function_list (s : ClassState) : List FuncDef :=
  s.probe_index.foldl (fun acc p => acc ++ p.list_function ()) []

/-- `function_list` with the class state threaded explicitly.  The method
body only reads `__probe_index`; it contains no assignment or in-place
mutation, so the state component comes back unchanged. -/
def function_listS (s : ClassState) : List FuncDef × ClassState :=
  (function_list s, s)

/-- The observable outcome of one `function_call`:
`outcome` is `.ok (some r)` when the method returns the string `r`,
`.ok none` when it returns `None` from an `except` branch, and `.error e`
when exception `e` propagates to the caller;
`calls` lists every invocation of a probe `call_function` hook as
`(probe name, function name, args)`;
`printed` lists the console output of the `except` handlers, one string
per `print(err)`. -/
structure CallResult where
  outcome : Except PyExc (Option String)
  calls : List (String × String × Args)
  printed : List String
deriving Repr

/-- The body of the `try:` block of `function_call`: resolve the function
entry, resolve its probe, then invoke
`probe['call_function'](function_name, function_args)` with the name and
arguments exactly as given.  Returns the raised-or-returned result
together with the list of `call_function` invocations performed. -/
def tryBody (s : ClassState) (function_name : String) (function_args : Args) :
    Except PyExc String × List (String × String × Args) :=
  match get_function s function_name with
  | .error e => (.error e, [])
  | .ok probe_function =>
    match get_probe s probe_function.probe with
    | .error e => (.error e, [])
    | .ok probe =>
      (probe.call_function function_name function_args,
       [(probe.name, function_name, function_args)])

/-- `function_call`: run the `try:` body; a `FunctionNotFoundError` or a
`ProbeNotFoundError` raised anywhere inside it is caught by the matching
`except` clause, which prints the exception and returns `None`; any other
exception propagates to the caller; a normal return is passed back
unchanged.  The class state is threaded explicitly; the method body never
assigns to either index, so it comes back unchanged. -/
def function_call (s : ClassState) (function_name : String) (function_args : Args) :
    CallResult × ClassState :=
  match tryBody s function_name function_args with
  | (.ok probe_result, calls) =>
      ({ outcome := .ok (some probe_result), calls := calls, printed := [] }, s)
  | (.error (.FunctionNotFoundError n), calls) =>
      ({ outcome := .ok none, calls := calls,
         printed := [(PyExc.FunctionNotFoundError n).strForm] }, s)
  | (.error (.ProbeNotFoundError n), calls) =>
      ({ outcome := .ok none, calls := calls,
         printed := [(PyExc.ProbeNotFoundError n).strForm] }, s)
  | (.error e, calls) =>
      ({ outcome := .error e, calls := calls, printed := [] }, s)

/-- Does a probe advertise a function name in its listing? -/
def advertises (p : Probe) (n : String) : Bool :=
  (p.list_function ()).any fun f => f.name == n

/-- Modelled from the spec: the Function Index operation
`listAll() -> sequence of FunctionDefinition` of section 4.2, which the
source keeps implicit (the index is a bare list).  It returns the function
definitions stored in the index, in index order. -/
def listAll (idx : List IndexEntry) : List FuncDef :=
  idx.map fun e => e.function

end ProbeController

/-! ## Concrete probes and states used to evaluate the theorems -/

/-- A stand-in for the one probe the source registers (`probes.database`),
with a pure listing hook and an execution hook that succeeds. -/
def databaseProbe : Probe :=
  { name := "database"
  , list_function := fun _ => [{ name := "query_db", schema := "sql" }]
  , call_function := fun fn _ => .ok ("result:" ++ fn) }

/-- A probe whose execution hook raises a foreign exception on one of its
two advertised functions and returns normally on the other. -/
def flakyProbe : Probe :=
  { name := "flaky"
  , list_function := fun _ => [{ name := "boom", schema := "s" }, { name := "fine", schema := "s" }]
  , call_function := fun fn _ => if fn == "boom" then .error (.other "db down") else .ok "ok" }

/-- A probe advertising the function name `dup` first in the registry. -/
def probeA : Probe :=
  { name := "alpha"
  , list_function := fun _ => [{ name := "dup", schema := "sa" }]
  , call_function := fun fn _ => .ok ("A:" ++ fn) }

/-- A second probe also advertising `dup`, registered after `probeA`. -/
def probeB : Probe :=
  { name := "beta"
  , list_function := fun _ => [{ name := "dup", schema := "sb" }, { name := "only_b", schema := "sb" }]
  , call_function := fun fn _ => .ok ("B:" ++ fn) }

/-- The controller state after one construction over the database probe:
class defaults `⟨[databaseProbe], []⟩` followed by `__init__`. -/
def s1 : ClassState := ProbeController.init { probe_index := [databaseProbe], function_index := [] }

/-- Constructed state over the flaky probe. -/
def sF : ClassState := ProbeController.init { probe_index := [flakyProbe], function_index := [] }

/-- Constructed state over two probes that both advertise `dup`. -/
def sAB : ClassState := ProbeController.init { probe_index := [probeA, probeB], function_index := [] }

/-- Constructed state over two probes with disjoint function name sets. -/
def sDJ : ClassState := ProbeController.init { probe_index := [databaseProbe, flakyProbe], function_index := [] }

/-- An inconsistent state whose function index references a probe name
absent from the registry, exercising the `ProbeNotFoundError` branch. -/
def sGhost : ClassState :=
  { probe_index := []
  , function_index := [{ probe := "ghost", function := { name := "ghost_fn", schema := "s" } }] }

namespace ProbeController

/-! ## Helper lemmas -/

/-- Membership in `List.Disjoint` over string lists is decidable; needed to
evaluate the disjointness hypotheses on concrete registries. -/
instance : DecidableRel (List.Disjoint : List String → List String → Prop) := fun l₁ l₂ =>
  decidable_of_iff (∀ a ∈ l₁, a ∉ l₂) (by
    constructor
    · intro h a ha hb
      exact h a ha hb
    · intro h a ha hb
      exact h ha hb)

/-- Folding list concatenation over a list is appending the flattened map. -/
theorem foldl_append_eq {α β : Type} (f : α → List β) (ps : List α) (acc : List β) :
    ps.foldl (fun a p => a ++ f p) acc = acc ++ (ps.map f).flatten := by
  induction ps generalizing acc with
  | nil => simp
  | cons p ps ih => simp [ih, List.append_assoc]

/-- What `__init__` leaves in the function index: the previous content
followed by every probe entry, in registry-then-listing order. -/
theorem init_function_index (s : ClassState) :
    (init s).function_index = s.function_index ++ (s.probe_index.map probeEntries).flatten := by
  simp [init, foldl_append_eq]

/-- `__init__` never touches the registry. -/
theorem init_probe_index (s : ClassState) : (init s).probe_index = s.probe_index := rfl

/-- `function_list` is the concatenation of all listing results in
registry order. -/
theorem function_list_eq_flatten (s : ClassState) :
    function_list s = (s.probe_index.map fun p => p.list_function ()).flatten := by
  simp [function_list, foldl_append_eq]

/-- Searching the entries contributed by one probe is searching its
listing and tagging the result with the probe name. -/
theorem find?_probeEntries (p : Probe) (n : String) :
    (probeEntries p).find? (fun e => e.function.name == n) =
      ((p.list_function ()).find? (fun f => f.name == n)).map
        (fun f => { probe := p.name, function := f }) := by
  unfold probeEntries
  rw [List.find?_map]
  rfl

/-- `any` agrees with `find?` producing a result. -/
theorem any_eq_find?_isSome {α : Type} (p : α → Bool) (l : List α) :
    l.any p = (l.find? p).isSome := by
  induction l with
  | nil => rfl
  | cons a l ih =>
    by_cases h : p a
    · simp [List.find?_cons_of_pos _ h, h]
    · simp only [Bool.not_eq_true] at h
      simp [List.find?_cons_of_neg, h, ih]

/-- If the first probe in registry order advertising `n` is `p`, then the
first matching entry of the flattened index belongs to `p` and names `n`. -/
theorem find?_flatten_first_advertiser (ps : List Probe) (n : String) (p : Probe)
    (hp : ps.find? (fun q => advertises q n) = some p) :
    ∃ f, ((ps.map probeEntries).flatten).find? (fun e => e.function.name == n) =
        some { probe := p.name, function := f } ∧ f.name = n := by
  induction ps with
  | nil => cases hp
  | cons q ps ih =>
    rw [List.map_cons, List.flatten_cons, List.find?_append]
    by_cases h : advertises q n
    · simp only [List.find?, h, Option.some.injEq] at hp
      subst hp
      have hfs : ((q.list_function ()).find? (fun f => f.name == n)).isSome := by
        rw [← any_eq_find?_isSome]
        exact h
      obtain ⟨f, hf⟩ := Option.isSome_iff_exists.mp hfs
      refine ⟨f, ?_, ?_⟩
      · rw [find?_probeEntries, hf]
        rfl
      · have hpred := List.find?_some hf
        simpa using hpred
    · simp only [Bool.not_eq_true] at h
      simp only [List.find?, h] at hp
      obtain ⟨f, hfind, hname⟩ := ih hp
      have hnone : (probeEntries q).find? (fun e => e.function.name == n) = none := by
        rw [find?_probeEntries]
        have hq : (q.list_function ()).find? (fun f => f.name == n) = none := by
          have hiso := any_eq_find?_isSome (fun f => f.name == n) (q.list_function ())
          rw [advertises] at h
          rw [h] at hiso
          exact Option.not_isSome_iff_eq_none.mp (by simp [← hiso])
        rw [hq]
        rfl
      rw [hnone, hfind]
      exact ⟨f, rfl, hname⟩

/-- Under pairwise-distinct probe names, looking a member probe up by its
own name returns that probe. -/
theorem find?_probe_name_nodup (ps : List Probe) (p : Probe)
    (hnd : (ps.map (fun q => q.name)).Nodup) (hmem : p ∈ ps) :
    ps.find? (fun q => q.name == p.name) = some p := by
  induction ps with
  | nil => cases hmem
  | cons q ps ih =>
    rw [List.map_cons, List.nodup_cons] at hnd
    rcases List.mem_cons.mp hmem with rfl | hmem2
    · exact List.find?_cons_of_pos _ (by simp)
    · have hne : (q.name == p.name) = false := by
        have hmemname : p.name ∈ ps.map (fun q => q.name) :=
          List.mem_map_of_mem _ hmem2
        simp only [beq_eq_false_iff_ne, ne_eq]
        intro hcontra
        exact hnd.1 (hcontra ▸ hmemname)
      rw [List.find?_cons_of_neg _ (by simp [hne])]
      exact ih hnd.2 hmem2

/-- The only exception `__get_function` raises is
`FunctionNotFoundError` carrying the requested name. -/
theorem get_function_error (s : ClassState) (n : String) (e : PyExc)
    (h : get_function s n = .error e) : e = .FunctionNotFoundError n := by
  unfold get_function at h
  split at h
  · cases h
  · injection h with h
    exact h.symm

/-- The only exception `__get_probe` raises is `ProbeNotFoundError`
carrying the requested name. -/
theorem get_probe_error (s : ClassState) (n : String) (e : PyExc)
    (h : get_probe s n = .error e) : e = .ProbeNotFoundError n := by
  unfold get_probe at h
  split at h
  · cases h
  · injection h with h
    exact h.symm

/-! ## Claim theorems -/

/-- Claim C2: when the function index is the one the constructor builds
from the registry and probe names are pairwise distinct, `function_call`
on a name advertised by at least one probe (possibly several) resolves
the first registry-order advertiser `p`: the function lookup returns an
entry owned by `p` whose definition carries the requested name, the probe
lookup returns `p` itself, and the single execution-hook invocation
performed is `p` called with the given name and arguments.  Determinism
across repeated calls is immediate: the embedding is a pure function of
the registry, index, name and arguments. -/
theorem function_call_first_registered_wins (s : ClassState) (n : String) (args : Args)
    (p : Probe)
    (hidx : s.function_index =
      (init { probe_index := s.probe_index, function_index := [] }).function_index)
    (hnd : (s.probe_index.map (fun q => q.name)).Nodup)
    (hp : s.probe_index.find? (fun q => advertises q n) = some p) :
    ∃ f, get_function s n = .ok { probe := p.name, function := f } ∧ f.name = n ∧
      get_probe s p.name = .ok p ∧
      (function_call s n args).1.calls = [(p.name, n, args)] := by
  have hidx2 : s.function_index = (s.probe_index.map probeEntries).flatten := by
    rw [hidx, init_function_index]
    rfl
  obtain ⟨f, hfind, hname⟩ := find?_flatten_first_advertiser s.probe_index n p hp
  have hgf : get_function s n = .ok { probe := p.name, function := f } := by
    unfold get_function
    rw [hidx2, hfind]
  have hmem : p ∈ s.probe_index := List.mem_of_find?_eq_some hp
  have hgp : get_probe s p.name = .ok p := by
    unfold get_probe
    rw [find?_probe_name_nodup s.probe_index p hnd hmem]
  refine ⟨f, hgf, hname, hgp, ?_⟩
  cases hc : p.call_function n args with
  | ok r => simp [function_call, tryBody, hgf, hgp, hc]
  | error e => cases e <;> simp [function_call, tryBody, hgf, hgp, hc]

/-- Claim C2, instantiated: with probes `alpha` and `beta` both
advertising `dup`, the call resolves and invokes `alpha`, the first
registered. -/
theorem function_call_first_registered_wins_witness :
    ∃ f, get_function sAB "dup" = .ok { probe := "alpha", function := f } ∧ f.name = "dup" ∧
      get_probe sAB "alpha" = .ok probeA ∧
      (function_call sAB "dup" []).1.calls = [("alpha", "dup", [])] :=
  function_call_first_registered_wins sAB "dup" [] probeA rfl (by decide) rfl

/-- Claim C3: if every probe lists pairwise-distinct function names and
the name sets of different probes are disjoint, `function_list` is
exactly the concatenation of all listing results in registry order (no
omissions), and the names it returns have no duplicates. -/
theorem function_list_disjoint_exact (s : ClassState)
    (hnd : ∀ p ∈ s.probe_index, ((p.list_function ()).map (fun f => f.name)).Nodup)
    (hdisj : (s.probe_index.map (fun p => (p.list_function ()).map (fun f => f.name))).Pairwise
      List.Disjoint) :
    function_list s = (s.probe_index.map fun p => p.list_function ()).flatten ∧
    ((function_list s).map (fun f => f.name)).Nodup := by
  refine ⟨function_list_eq_flatten s, ?_⟩
  rw [function_list_eq_flatten s, List.map_flatten, List.map_map]
  rw [List.nodup_flatten]
  constructor
  · intro l hl
    obtain ⟨p, hpmem, rfl⟩ := List.mem_map.mp hl
    exact hnd p hpmem
  · exact hdisj

/-- Claim C3, instantiated on the registry of the `database` and `flaky`
probes, whose advertised names are disjoint. -/
theorem function_list_disjoint_exact_witness :
    function_list sDJ = (sDJ.probe_index.map fun p => p.list_function ()).flatten ∧
    ((function_list sDJ).map (fun f => f.name)).Nodup :=
  function_list_disjoint_exact sDJ (by decide) (by decide)

/-- Claim C4: whenever the function lookup yields an entry, the probe
lookup yields its probe `p`, and the execution hook returns normally,
`function_call` invokes the hook exactly once with the name and argument
mapping exactly as given and returns the string result unchanged, leaving
the class state untouched. -/
theorem function_call_exact_passthrough (s : ClassState) (n : String) (args : Args)
    (entry : IndexEntry) (p : Probe) (r : String)
    (hf : get_function s n = .ok entry)
    (hp : get_probe s entry.probe = .ok p)
    (hr : p.call_function n args = .ok r) :
    function_call s n args =
      ({ outcome := .ok (some r), calls := [(p.name, n, args)], printed := [] }, s) := by
  simp [function_call, tryBody, hf, hp, hr]

/-- Claim C4, instantiated: calling `query_db` with an argument mapping
passes both through verbatim and returns the probe result unchanged. -/
theorem function_call_exact_passthrough_witness :
    function_call s1 "query_db" [("k", "v")] =
      ({ outcome := .ok (some "result:query_db"),
         calls := [("database", "query_db", [("k", "v")])], printed := [] }, s1) :=
  function_call_exact_passthrough s1 "query_db" [("k", "v")]
    { probe := "database", function := { name := "query_db", schema := "sql" } }
    databaseProbe "result:query_db" rfl rfl rfl

/-- Claim C6: when the function index is the one the constructor builds
from the registry, every entry the function lookup returns names a
registered probe, so the probe lookup succeeds and the
`ProbeNotFoundError` branch is unreachable. -/
theorem probe_lookup_total (s : ClassState) (n : String) (entry : IndexEntry)
    (hidx : s.function_index =
      (init { probe_index := s.probe_index, function_index := [] }).function_index)
    (hf : get_function s n = .ok entry) :
    ∃ p, get_probe s entry.probe = .ok p := by
  have hidx2 : s.function_index = (s.probe_index.map probeEntries).flatten := by
    rw [hidx, init_function_index]
    rfl
  have hmem : entry ∈ s.function_index := by
    unfold get_function at hf
    split at hf
    next e heq =>
      injection hf with hf
      subst hf
      exact List.mem_of_find?_eq_some heq
    next => cases hf
  rw [hidx2] at hmem
  obtain ⟨l, hl, hel⟩ := List.mem_flatten.mp hmem
  obtain ⟨p, hpmem, rfl⟩ := List.mem_map.mp hl
  have hprobe : entry.probe = p.name := by
    unfold probeEntries at hel
    obtain ⟨f, hfmem, rfl⟩ := List.mem_map.mp hel
    rfl
  rw [hprobe]
  have hsome : (s.probe_index.find? (fun q => q.name == p.name)).isSome := by
    rw [List.find?_isSome]
    exact ⟨p, hpmem, by simp⟩
  obtain ⟨q, hq⟩ := Option.isSome_iff_exists.mp hsome
  refine ⟨q, ?_⟩
  unfold get_probe
  rw [hq]

/-- Claim C6, instantiated on the constructed single-probe state. -/
theorem probe_lookup_total_witness :
    ∃ p, get_probe s1 "database" = .ok p :=
  probe_lookup_total s1 "query_db"
    { probe := "database", function := { name := "query_db", schema := "sql" } } rfl rfl

/-- Claim C7: once both lookups have succeeded, the `except` clauses of
`function_call` are the only handlers, and they match only the two lookup
error classes: a foreign exception raised by the execution hook
propagates to the caller uncaught, while any normal return is passed back
as success whatever its content. -/
theorem function_call_catches_only_lookup (s : ClassState) (n : String) (args : Args)
    (entry : IndexEntry) (p : Probe)
    (hf : get_function s n = .ok entry)
    (hp : get_probe s entry.probe = .ok p) :
    (∀ m, p.call_function n args = .error (.other m) →
      (function_call s n args).1.outcome = .error (.other m)) ∧
    (∀ r, p.call_function n args = .ok r →
      (function_call s n args).1.outcome = .ok (some r)) := by
  constructor
  · intro m hm
    simp [function_call, tryBody, hf, hp, hm]
  · intro r hr
    simp [function_call, tryBody, hf, hp, hr]

/-- Claim C7, instantiated on the flaky probe: its raising function
propagates the foreign exception, its normal function returns success. -/
theorem function_call_catches_only_lookup_witness :
    (function_call sF "boom" []).1.outcome = .error (.other "db down") ∧
    (function_call sF "fine" []).1.outcome = .ok (some "ok") :=
  ⟨(function_call_catches_only_lookup sF "boom" []
      { probe := "flaky", function := { name := "boom", schema := "s" } } flakyProbe rfl rfl).1
      "db down" rfl,
   (function_call_catches_only_lookup sF "fine" []
      { probe := "flaky", function := { name := "fine", schema := "s" } } flakyProbe rfl rfl).2
      "ok" rfl⟩

/-- Claim C8: `function_list` leaves the class state unchanged, two
consecutive calls return the same sequence, and the sequence does not
depend on the mutable function index at all (listing hooks are pure Lean
functions here, matching the purity premise of the claim). -/
theorem function_list_idempotent_pure (s : ClassState) (idx : List IndexEntry) :
    (function_listS s).2 = s ∧
    (function_listS ((function_listS s).2)).1 = (function_listS s).1 ∧
    (function_listS { probe_index := s.probe_index, function_index := idx }).1 =
      (function_listS s).1 :=
  ⟨rfl, rfl, rfl⟩

/-- Claim C9: with pure listing hooks, the sequence `function_list`
returns coincides, element for element and in order, with `listAll` of
the function index the constructor builds over the same registry. -/
theorem function_list_eq_listAll (s : ClassState) :
    function_list s =
      listAll (init { probe_index := s.probe_index, function_index := [] }).function_index := by
  have h : ∀ ps : List Probe,
      (ps.map fun p => p.list_function ()).flatten =
        ((ps.map probeEntries).flatten).map (fun e => e.function) := by
    intro ps
    induction ps with
    | nil => rfl
    | cons p ps ih =>
      simp [probeEntries, ih, List.map_map]
      exact (List.map_id (p.list_function ())).symm
  rw [function_list_eq_flatten, init_function_index]
  simp only [List.nil_append]
  unfold listAll
  exact h s.probe_index

/-- Claim C10: on either lookup failure — `FunctionNotFoundError` from
the function lookup, or `ProbeNotFoundError` from the probe lookup —
`function_call` returns `None` without invoking any execution hook and
with the class state (registry and function index) unchanged. -/
theorem function_call_failure_atomic (s : ClassState) (n : String) (args : Args)
    (h : (∃ e, get_function s n = .error e) ∨
      ∃ entry e, get_function s n = .ok entry ∧ get_probe s entry.probe = .error e) :
    (function_call s n args).1.outcome = .ok none ∧
    (function_call s n args).1.calls = [] ∧
    (function_call s n args).2 = s := by
  rcases h with ⟨e, he⟩ | ⟨entry, e, hf, hp⟩
  · have he2 := get_function_error s n e he
    subst he2
    simp [function_call, tryBody, he]
  · have he2 := get_probe_error s entry.probe e hp
    subst he2
    simp [function_call, tryBody, hf, hp]

/-- Claim C10, instantiated: a name absent from the index returns `None`
with no hook invocation and no state change. -/
theorem function_call_failure_atomic_witness :
    (function_call s1 "missing" []).1.outcome = .ok none ∧
    (function_call s1 "missing" []).1.calls = [] ∧
    (function_call s1 "missing" []).2 = s1 :=
  function_call_failure_atomic s1 "missing" []
    (Or.inl ⟨.FunctionNotFoundError "missing", rfl⟩)

/-- Claim C1 (code defect, evaluated on both failure kinds): on a lookup
failure `function_call` does return `None` without raising, but the
diagnostic it emits is only the offending name, not the error kind:
neither exception class calls `Exception.__init__`, so `print(err)`
prints the bare constructor argument stored by `BaseException.__new__`
instead of the `msg` attribute that carries the error-kind text. -/
theorem function_call_diagnostic_eval :
    (function_call s1 "nonexistent-name" []).1.outcome = .ok none ∧
    (function_call s1 "nonexistent-name" []).1.printed = ["nonexistent-name"] ∧
    (PyExc.FunctionNotFoundError "nonexistent-name").msg =
      "Probe callable function not found: nonexistent-name" ∧
    (function_call s1 "nonexistent-name" []).1.printed ≠
      [(PyExc.FunctionNotFoundError "nonexistent-name").msg] ∧
    (function_call sGhost "ghost_fn" []).1.outcome = .ok none ∧
    (function_call sGhost "ghost_fn" []).1.printed = ["ghost"] ∧
    (function_call sGhost "ghost_fn" []).1.printed ≠
      [(PyExc.ProbeNotFoundError "ghost").msg] := by
  refine ⟨rfl, rfl, rfl, by decide, rfl, rfl, by decide⟩

/-- Claim C5 (code defect, evaluated): `__function_index` is a class
attribute and `__init__` appends to it in place, so constructing the
controller a second time appends a second copy of every entry — the
function index is not built exactly once and is mutated by a subsequent
construction. -/
theorem double_construction_eval :
    (init (init { probe_index := [databaseProbe], function_index := [] })).function_index =
      [{ probe := "database", function := { name := "query_db", schema := "sql" } },
       { probe := "database", function := { name := "query_db", schema := "sql" } }] ∧
    (init { probe_index := [databaseProbe], function_index := [] }).function_index =
      [{ probe := "database", function := { name := "query_db", schema := "sql" } }] ∧
    (init (init { probe_index := [databaseProbe], function_index := [] })).function_index ≠
      (init { probe_index := [databaseProbe], function_index := [] }).function_index := by
  refine ⟨rfl, rfl, by decide⟩

end ProbeController

end AIOps
